import Mathlib

/-!
Shallow embedding of `src/src/lib.rs` (a postfix-token lambda-calculus
core: expression trees, a stack-based parser, substitution and
beta-reduction).

Rust panics (`panic!`, `.unwrap()` on `None`) abort the process; they are
modelled by `Option.none` in the result type.  `Clone::clone` on plain
data is the identity in this embedding.  The trait bound
`Val : SigmaRules` is modelled by passing an explicit dictionary `σ`,
mirroring the fact that every generic function of the crate has the
`SigmaRules` capability in scope through `T : Types`.
-/

set_option linter.unusedSectionVars false

namespace FgrsToolbox

/-- The `SigmaRules` trait from the source: a host-supplied rule for
combining two constant values, with an associated error type. -/
structure SigmaRules (V E : Type) where
  apply : V → V → Except E V

/-- `enum Token<T: Types>`: the flat postfix wire format. -/
inductive Token (V S : Type) where
  | Id : S → Token V S
  | Val : V → Token V S
  | Lambda : Token V S
  | Apply : Token V S
deriving DecidableEq

/-- `enum Expr<T: Types>`: classic lambda expression trees. -/
inductive Expr (V S : Type) where
  | Lambda : S → Expr V S → Expr V S
  | Val : V → Expr V S
  | Var : S → Expr V S
  | App : Expr V S → Expr V S → Expr V S
deriving DecidableEq

/-- `enum ParseError<T: Types>`. -/
inductive ParseError (V S : Type) where
  | Unexpected : Token V S → ParseError V S
  | Mismatched : ParseError V S
  | Underflow : ParseError V S
  | NotAVar : ParseError V S
  | EOF : ParseError V S
deriving DecidableEq

variable {V S E : Type} [DecidableEq S]

/-- `Expr::subst(self, var, exp)`.  `Var(v)` with `v == var` becomes a
clone of `exp`; a `Lambda` whose binder equals `var` hits
`panic!("Identifier conflic")`, modelled as `none`; other lambdas
substitute in the body; applications substitute in both children; the
remaining shapes (`Var` with another name, `Val`) are returned as-is. -/
def Expr.subst (σ : SigmaRules V E) : Expr V S → S → Expr V S → Option (Expr V S)
  | .Var v, var, exp =>
      if v = var then some exp else some (.Var v)
  | .Lambda a b, var, exp =>
      if a = var then none
      else (b.subst σ var exp).map (.Lambda a)
  | .App f x, var, exp => do
      let f2 ← f.subst σ var exp
      let x2 ← x.subst σ var exp
      pure (.App f2 x2)
  | .Val v, _, _ => some (.Val v)

/-- `Expr::beta_reduce(self)`: an application whose function is a lambda
substitutes the argument for the binder in the body; both
`panic!("not a function!")` and `panic!("not reducible")` are modelled
as `none`. -/
def Expr.beta_reduce (σ : SigmaRules V E) : Expr V S → Option (Expr V S)
  | .App f x =>
      match f with
      | .Lambda a b => b.subst σ a x
      | _ => none
  | _ => none

/-- The token loop of `Expr::parse`, with the operand `stack` explicit
(list head = top of stack).  `Token::Apply` pops with `.unwrap()`: on an
underflow the process aborts, modelled as `none`; all other failures are
returned as `ParseError` values. -/
def Expr.parseLoop (σ : SigmaRules V E) :
    List (Token V S) → List (Expr V S) →
    Option (Except (ParseError V S) (Expr V S))
  | [], stack =>
      match stack with
      | [e] => some (.ok e)
      | _ => some (.error .EOF)
  | t :: ts, stack =>
      match t with
      | .Val v => Expr.parseLoop σ ts (.Val v :: stack)
      | .Id s => Expr.parseLoop σ ts (.Var s :: stack)
      | .Lambda =>
          match stack with
          | body :: arg :: rest =>
              match arg with
              | .Var s => Expr.parseLoop σ ts (.Lambda s body :: rest)
              | _ => some (.error .NotAVar)
          | _ => some (.error .Underflow)
      | .Apply =>
          match stack with
          | arg :: func :: rest => Expr.parseLoop σ ts (.App func arg :: rest)
          | _ => none

/-- `Expr::parse(input)`: run the token loop on an empty operand stack. -/
def Expr.parse (σ : SigmaRules V E) (input : List (Token V S)) :
    Option (Except (ParseError V S) (Expr V S)) :=
  Expr.parseLoop σ input []

/-- Spec vocabulary (glossary "Free variable"): `v` occurs free in the
expression, i.e. not under a lambda binding the same name. -/
def Expr.freeIn (v : S) : Expr V S → Bool
  | .Var s => s = v
  | .Val _ => false
  | .Lambda a b => a ≠ v && b.freeIn v
  | .App f x => f.freeIn v || x.freeIn v

/-- Spec vocabulary: some lambda node inside the expression has `v` as
its binder. -/
def Expr.hasBinder (v : S) : Expr V S → Bool
  | .Var _ => false
  | .Val _ => false
  | .Lambda a b => a = v || b.hasBinder v
  | .App f x => f.hasBinder v || x.hasBinder v

instance {ε α : Type} [DecidableEq ε] [DecidableEq α] : DecidableEq (Except ε α) :=
  fun x y =>
    match x, y with
    | .ok a, .ok b =>
        if h : a = b then .isTrue (by rw [h])
        else .isFalse (by intro hc; cases hc; exact h rfl)
    | .error a, .error b =>
        if h : a = b then .isTrue (by rw [h])
        else .isFalse (by intro hc; cases hc; exact h rfl)
    | .ok _, .error _ => .isFalse (by intro hc; cases hc)
    | .error _, .ok _ => .isFalse (by intro hc; cases hc)

/-- The concrete binding used by the crate's tests: `Val = i32`
(modelled as `Int`), `Sym = String`, and a `SigmaRules` instance whose
`apply` always errors. -/
def testRules : SigmaRules Int Unit :=
  { apply := fun _ _ => .error () }

/-- Expression trees at the crate's test binding. -/
abbrev TExpr := Expr Int String

/-- Tokens at the crate's test binding. -/
abbrev TToken := Token Int String

/-! ## Helper lemmas -/

/-- `subst` never consults the sigma-rules dictionary. -/
theorem subst_sigma_irrel {E1 E2 : Type} (σ1 : SigmaRules V E1) (σ2 : SigmaRules V E2)
    (e : Expr V S) (var : S) (r : Expr V S) :
    e.subst σ1 var r = e.subst σ2 var r := by
  induction e with
  | Lambda a b ih => simp [Expr.subst, ih]
  | Val v => simp [Expr.subst]
  | Var s => simp [Expr.subst]
  | App f x ihf ihx => simp [Expr.subst, ihf, ihx]

/-- `beta_reduce` never consults the sigma-rules dictionary. -/
theorem beta_reduce_sigma_irrel {E1 E2 : Type} (σ1 : SigmaRules V E1) (σ2 : SigmaRules V E2)
    (e : Expr V S) : e.beta_reduce σ1 = e.beta_reduce σ2 := by
  cases e with
  | App f x =>
      cases f with
      | Lambda a b => exact subst_sigma_irrel σ1 σ2 b a x
      | Val v => rfl
      | Var s => rfl
      | App g y => rfl
  | Lambda a b => rfl
  | Val v => rfl
  | Var s => rfl

/-- The parser loop never consults the sigma-rules dictionary. -/
theorem parseLoop_sigma_irrel {E1 E2 : Type} (σ1 : SigmaRules V E1) (σ2 : SigmaRules V E2)
    (ts : List (Token V S)) :
    ∀ stack, Expr.parseLoop σ1 ts stack = Expr.parseLoop σ2 ts stack := by
  induction ts with
  | nil => intro stack; cases stack with
    | nil => rfl
    | cons e rest => cases rest <;> rfl
  | cons t ts ih =>
      intro stack
      cases t with
      | Val v => exact ih _
      | Id s => exact ih _
      | Lambda =>
          cases stack with
          | nil => rfl
          | cons body rest =>
              cases rest with
              | nil => rfl
              | cons arg rest2 =>
                  cases arg with
                  | Var s => exact ih _
                  | Lambda a b => rfl
                  | Val v => rfl
                  | App f x => rfl
      | Apply =>
          cases stack with
          | nil => rfl
          | cons arg rest =>
              cases rest with
              | nil => rfl
              | cons func rest2 => exact ih _

/-- On a token list without `Apply`, the parser loop never hits the
unchecked pop: it always returns a value. -/
theorem parseLoop_some_of_no_apply (σ : SigmaRules V E) (ts : List (Token V S))
    (h : Token.Apply ∉ ts) :
    ∀ stack, ∃ r, Expr.parseLoop σ ts stack = some r := by
  induction ts with
  | nil =>
      intro stack
      cases stack with
      | nil => exact ⟨.error .EOF, rfl⟩
      | cons e rest =>
          cases rest with
          | nil => exact ⟨.ok e, rfl⟩
          | cons f rest2 => exact ⟨.error .EOF, rfl⟩
  | cons t ts ih =>
      have hts : Token.Apply ∉ ts := fun hmem => h (List.mem_cons_of_mem t hmem)
      intro stack
      cases t with
      | Val v => exact ih hts _
      | Id s => exact ih hts _
      | Lambda =>
          cases stack with
          | nil => exact ⟨.error .Underflow, rfl⟩
          | cons body rest =>
              cases rest with
              | nil => exact ⟨.error .Underflow, rfl⟩
              | cons arg rest2 =>
                  cases arg with
                  | Var s => exact ih hts _
                  | Lambda a b => exact ⟨.error .NotAVar, rfl⟩
                  | Val v => exact ⟨.error .NotAVar, rfl⟩
                  | App f x => exact ⟨.error .NotAVar, rfl⟩
      | Apply => exact absurd (List.mem_cons_self _ _) h

/-- Substituting for `v` aborts (identifier-conflict panic) as soon as any
lambda binder named `v` occurs anywhere in the target. -/
theorem subst_none_of_hasBinder (σ : SigmaRules V E) (e : Expr V S) (v : S) (r : Expr V S)
    (h : e.hasBinder v = true) : e.subst σ v r = none := by
  induction e with
  | Var s => simp [Expr.hasBinder] at h
  | Val w => simp [Expr.hasBinder] at h
  | Lambda a b ih =>
      simp [Expr.hasBinder] at h
      rcases h with h | h
      · simp [Expr.subst, h]
      · by_cases ha : a = v
        · simp [Expr.subst, ha]
        · simp [Expr.subst, ha, ih h]
  | App f x ihf ihx =>
      simp [Expr.hasBinder] at h
      rcases h with h | h
      · simp [Expr.subst, ihf h]
      · cases hf : f.subst σ v r with
        | none => simp [Expr.subst, hf]
        | some f2 => simp [Expr.subst, hf, ihx h]

/-- `subst` is the identity on any target in which the substituted
symbol occurs neither free nor as a lambda binder. -/
theorem subst_id_of_no_occurrence (σ : SigmaRules V E) (e : Expr V S) (v : S) (r : Expr V S)
    (hfree : e.freeIn v = false) (hbind : e.hasBinder v = false) :
    e.subst σ v r = some e := by
  induction e with
  | Var s =>
      simp [Expr.freeIn] at hfree
      simp [Expr.subst, hfree]
  | Val w => simp [Expr.subst]
  | Lambda a b ih =>
      simp [Expr.hasBinder] at hbind
      simp [Expr.freeIn, hbind.1] at hfree
      simp [Expr.subst, hbind.1, ih hfree hbind.2]
  | App f x ihf ihx =>
      simp [Expr.freeIn] at hfree
      simp [Expr.hasBinder] at hbind
      simp [Expr.subst, ihf hfree.1 hbind.1, ihx hfree.2 hbind.2]

/-! ## Claim theorems -/

/-- Claim C1: on every non-shadowed shape of the target, `subst` follows
the spec's recursive rules: an equal variable becomes the replacement, a
different variable is unchanged, a lambda with a different binder is
rebuilt around the substituted body (with no capture check of the
replacement), an application is rebuilt with both children substituted
independently, and a constant is unchanged. -/
theorem subst_shape_rules (σ : SigmaRules V E) (var s a : S) (r body f x : Expr V S) (v : V) :
    (Expr.subst σ (.Var var) var r = some r) ∧
    (s ≠ var → Expr.subst σ (.Var s) var r = some (.Var s)) ∧
    (a ≠ var →
      Expr.subst σ (.Lambda a body) var r = (body.subst σ var r).map (.Lambda a)) ∧
    (Expr.subst σ (.App f x) var r =
      (f.subst σ var r).bind fun f2 => (x.subst σ var r).bind fun x2 => some (.App f2 x2)) ∧
    (Expr.subst σ (.Val v) var r = some (.Val v)) := by
  refine ⟨by simp [Expr.subst], fun h => by simp [Expr.subst, h],
    fun h => by simp [Expr.subst, h], rfl, rfl⟩

/-- Witness for C1 at the test binding: the hypotheses of the variable
and lambda clauses hold at concrete distinct names. -/
theorem subst_shape_rules_instance :
    ("y" : String) ≠ "x" ∧ ("z" : String) ≠ "x" ∧
    Expr.subst testRules (Expr.Var "y" : TExpr) "x" (Expr.Val 7) = some (Expr.Var "y") ∧
    Expr.subst testRules (Expr.Lambda "z" (Expr.Var "x") : TExpr) "x" (Expr.Val 7)
      = ((Expr.Var "x" : TExpr).subst testRules "x" (Expr.Val 7)).map (Expr.Lambda "z") := by
  have h := subst_shape_rules testRules "x" "y" "z" (Expr.Val 7)
    (Expr.Var "x") (Expr.Var "x") (Expr.Var "x") (0 : Int)
  exact ⟨by decide, by decide, h.2.1 (by decide), h.2.2.1 (by decide)⟩

/-- Claim C2: `beta_reduce` on a redex `App (Lambda binder body) arg` is
exactly `subst body binder arg`; in particular two successive reductions
of `(\f. f 0) (\x. x)` yield the constant `0`. -/
theorem beta_reduce_is_subst (σ : SigmaRules V E) (binder : S) (body arg : Expr V S) :
    (Expr.beta_reduce σ (.App (.Lambda binder body) arg) = body.subst σ binder arg) ∧
    ((Expr.beta_reduce testRules
        (Expr.App (Expr.Lambda "f" (Expr.App (Expr.Var "f") (Expr.Val 0)))
          (Expr.Lambda "x" (Expr.Var "x")) : TExpr)).bind
      (Expr.beta_reduce testRules) = some (Expr.Val 0)) :=
  ⟨rfl, by decide⟩

/-- Counterexample to C3: substituting for `x` in `Lambda "x" (Var "x")`
does not return the lambda unchanged — it aborts (panic, modelled as
`none`). -/
theorem subst_shadowed_not_unchanged :
    Expr.subst testRules (Expr.Lambda "x" (Expr.Var "x") : TExpr) "x" (Expr.Val 0) = none ∧
    Expr.subst testRules (Expr.Lambda "x" (Expr.Var "x") : TExpr) "x" (Expr.Val 0)
      ≠ some (Expr.Lambda "x" (Expr.Var "x")) := by
  decide

/-- Claim C3 (amended): for every target `Lambda a body` with `a = var`,
`subst` hits the unconditional identifier-conflict panic: it does not
descend into the body and produces no expression at all. -/
theorem subst_shadowed_panics (σ : SigmaRules V E) (a : S) (body r : Expr V S) :
    Expr.subst σ (.Lambda a body) a r = none := by
  simp [Expr.subst]

/-- Counterexample to C4: `x` is not free in `Lambda "x" (Var "x")`, yet
substituting for `x` there does not return the expression unchanged (it
aborts). -/
theorem subst_bound_var_not_identity :
    Expr.freeIn "x" (Expr.Lambda "x" (Expr.Var "x") : TExpr) = false ∧
    Expr.subst testRules (Expr.Lambda "x" (Expr.Var "x") : TExpr) "x" (Expr.Val 0)
      ≠ some (Expr.Lambda "x" (Expr.Var "x")) := by
  decide

/-- Claim C4 (amended): for every expression `e`, symbol `v` that is
neither free in `e` nor the binder of any lambda inside `e`, and every
replacement `r`, `subst e v r` returns `e` structurally unchanged. -/
theorem subst_no_occurrence_identity (σ : SigmaRules V E) (e : Expr V S) (v : S) (r : Expr V S)
    (hfree : e.freeIn v = false) (hbind : e.hasBinder v = false) :
    e.subst σ v r = some e :=
  subst_id_of_no_occurrence σ e v r hfree hbind

/-- Witness for C4 (amended) at a concrete expression without any
occurrence of the substituted name. -/
theorem subst_no_occurrence_instance :
    Expr.subst testRules
      (Expr.App (Expr.Var "y") (Expr.Lambda "z" (Expr.Var "y")) : TExpr) "x" (Expr.Val 0)
      = some (Expr.App (Expr.Var "y") (Expr.Lambda "z" (Expr.Var "y"))) :=
  subst_no_occurrence_identity testRules
    (Expr.App (Expr.Var "y") (Expr.Lambda "z" (Expr.Var "y"))) "x" (Expr.Val 0)
    (by decide) (by decide)

/-- Counterexample to C5: on the token sequence `[ApplyMarker]` the
parser returns no result at all — the unchecked `.unwrap()` pop aborts
the process — so `parse` is not total in the claimed sense. -/
theorem parse_can_abort :
    (Expr.parse testRules ([Token.Apply] : List TToken)).isSome = false := by
  decide

/-- Claim C5 (amended): `parse` is a deterministic, terminating function
of its token sequence and never yields a partial tree; on every sequence
without an `ApplyMarker` it returns an expression tree or one of the
specified error values, but an `ApplyMarker` that underflows the operand
stack aborts the process instead. -/
theorem parse_total_without_apply_marker (σ : SigmaRules V E) (ts : List (Token V S))
    (h : Token.Apply ∉ ts) : ∃ r, Expr.parse σ ts = some r :=
  parseLoop_some_of_no_apply σ ts h []

/-- Witness for C5 (amended) on a concrete `Apply`-free token sequence. -/
theorem parse_total_without_apply_marker_instance :
    ∃ r, Expr.parse testRules
      ([Token.Id "x", Token.Id "y", Token.Lambda] : List TToken) = some r :=
  parse_total_without_apply_marker testRules
    [Token.Id "x", Token.Id "y", Token.Lambda] (by decide)

/-- Claim C6: on a `LambdaMarker` the parser pops the body (stack top),
then the binder candidate; a non-variable candidate fails with
`NotAVariable` (in particular on `[Constant v, Identifier "y",
LambdaMarker]`); an underflow at either pop fails with `StackUnderflow`;
on success `Lambda s body` is pushed. -/
theorem parse_lambda_marker_behavior (σ : SigmaRules V E) (ts : List (Token V S))
    (body arg e : Expr V S) (rest : List (Expr V S)) (s : S) (v : Int) :
    (Expr.parseLoop σ (Token.Lambda :: ts) (body :: .Var s :: rest)
      = Expr.parseLoop σ ts (.Lambda s body :: rest)) ∧
    ((∀ s2, arg ≠ .Var s2) →
      Expr.parseLoop σ (Token.Lambda :: ts) (body :: arg :: rest) = some (.error .NotAVar)) ∧
    (Expr.parseLoop σ (Token.Lambda :: ts) [] = some (.error .Underflow)) ∧
    (Expr.parseLoop σ (Token.Lambda :: ts) [e] = some (.error .Underflow)) ∧
    (Expr.parse testRules ([Token.Val v, Token.Id "y", Token.Lambda] : List TToken)
      = some (.error .NotAVar)) := by
  refine ⟨rfl, fun h => ?_, rfl, rfl, rfl⟩
  cases arg with
  | Var s2 => exact absurd rfl (h s2)
  | Lambda a b => rfl
  | Val w => rfl
  | App f x => rfl

/-- Witness for C6 at concrete inputs: a constant in binder position
triggers `NotAVar`. -/
theorem parse_lambda_marker_instance :
    Expr.parseLoop testRules ([Token.Lambda] : List TToken)
      ([Expr.Var "b", Expr.Val 0] : List TExpr) = some (.error .NotAVar) :=
  (parse_lambda_marker_behavior testRules [] (Expr.Var "b") (Expr.Val 0)
      (Expr.Val 0) [] "s" 0).2.1 (fun s2 hc => by cases hc)

/-- Counterexample to C7: an `ApplyMarker` on an empty stack does not
fail with the `StackUnderflow` error — the parser aborts (unwrap panic,
modelled as `none`). -/
theorem parse_apply_underflow_not_error :
    Expr.parse testRules ([Token.Apply] : List TToken) = none ∧
    Expr.parse testRules ([Token.Apply] : List TToken)
      ≠ some (.error ParseError.Underflow) := by
  decide

/-- Claim C7 (amended): on an `ApplyMarker` the parser pops the argument
first and the function second and pushes `App function argument`;
popping from a stack with fewer than two items aborts the process
(unchecked `unwrap`) instead of failing with `StackUnderflow`. -/
theorem parse_apply_marker_behavior (σ : SigmaRules V E) (ts : List (Token V S))
    (arg func e : Expr V S) (rest : List (Expr V S)) :
    (Expr.parseLoop σ (Token.Apply :: ts) (arg :: func :: rest)
      = Expr.parseLoop σ ts (.App func arg :: rest)) ∧
    (Expr.parseLoop σ (Token.Apply :: ts) [] = none) ∧
    (Expr.parseLoop σ (Token.Apply :: ts) [e] = none) :=
  ⟨rfl, rfl, rfl⟩

/-- Claim C8: at end of input the parser returns the single remaining
stack item, and fails with `EndOfInput` whenever the stack holds zero
items or more than one item. -/
theorem parse_end_of_input_behavior (σ : SigmaRules V E) (e : Expr V S)
    (stack : List (Expr V S)) :
    (Expr.parseLoop σ [] [e] = some (.ok e)) ∧
    (stack.length ≠ 1 → Expr.parseLoop σ [] stack = some (.error .EOF)) := by
  refine ⟨rfl, fun h => ?_⟩
  cases stack with
  | nil => rfl
  | cons f rest =>
      cases rest with
      | nil => exact absurd rfl h
      | cons g rest2 => rfl

/-- Witness for C8 at concrete stacks of length 0 and 2. -/
theorem parse_end_of_input_instance :
    Expr.parseLoop testRules ([] : List TToken) ([] : List TExpr) = some (.error .EOF) ∧
    Expr.parseLoop testRules ([] : List TToken) ([Expr.Val 1, Expr.Val 2] : List TExpr)
      = some (.error .EOF) :=
  ⟨(parse_end_of_input_behavior testRules (Expr.Val 0) []).2 (by decide),
   (parse_end_of_input_behavior testRules (Expr.Val 0) [Expr.Val 1, Expr.Val 2]).2 (by decide)⟩

/-- Claim C9: `parse`, `subst` and `beta_reduce` never invoke the
host-supplied combination rule: any two sigma-rules dictionaries over
the same value type (even with different error types) produce identical
results on every input. -/
theorem core_independent_of_sigma_rules {E1 E2 : Type}
    (σ1 : SigmaRules V E1) (σ2 : SigmaRules V E2)
    (ts : List (Token V S)) (e r : Expr V S) (var : S) :
    (Expr.parse σ1 ts = Expr.parse σ2 ts) ∧
    (Expr.subst σ1 e var r = Expr.subst σ2 e var r) ∧
    (Expr.beta_reduce σ1 e = Expr.beta_reduce σ2 e) :=
  ⟨parseLoop_sigma_irrel σ1 σ2 ts [],
   subst_sigma_irrel σ1 σ2 e var r,
   beta_reduce_sigma_irrel σ1 σ2 e⟩

/-- Claim C10: the panic branch of `beta_reduce` is reachable on
well-formed redexes: whenever the body of the applied lambda contains a
lambda whose binder equals the outer binder, the substitution step hits
the unconditional identifier-conflict panic — in particular on
`App (Lambda "x" (Lambda "x" (Var "x"))) (Val 0)`. -/
theorem beta_reduce_panic_reachable (σ : SigmaRules V E) (binder : S)
    (body arg : Expr V S) (h : body.hasBinder binder = true) :
    (Expr.beta_reduce σ (.App (.Lambda binder body) arg) = none) ∧
    (Expr.beta_reduce testRules
      (Expr.App (Expr.Lambda "x" (Expr.Lambda "x" (Expr.Var "x"))) (Expr.Val 0) : TExpr)
      = none) :=
  ⟨subst_none_of_hasBinder σ body binder arg h, by decide⟩

/-- Witness for C10 on the concrete shadowed redex. -/
theorem beta_reduce_panic_reachable_instance :
    Expr.beta_reduce testRules
      (Expr.App (Expr.Lambda "x" (Expr.Lambda "x" (Expr.Var "x"))) (Expr.Val 0) : TExpr)
      = none :=
  (beta_reduce_panic_reachable testRules "x" (Expr.Lambda "x" (Expr.Var "x"))
    (Expr.Val 0) (by decide)).1

end FgrsToolbox
